import Mathlib

/-!
Verification of the data-modeling and dual-write core of
`src/Assignments/Assignment 4/mongo_load.py`.

The embedding models:
* pandas cells as `Cell` (`na` is a missing value / NaN cell, `str` a textual cell;
  numeric cells are represented by their textual form, which `float` / `int`
  coerce identically);
* Python `float(...)` as `pyFloatOfString` over the rationals: the numeric
  literal grammar with underscore separators, the special literals nan / inf /
  infinity (any case, signed), and overflow of large decimal values to an
  infinity; finite values are carried as exact rationals, so the binary64
  rounding of `float` is not modelled (`PFloat.nan` is the float NaN, also
  obtained from a NaN cell, and `PFloat.inf` a signed infinity);
* `datetime.strptime` for the three fixed formats of `parse_invoice_date`, and the
  permissive `pandas.to_datetime(dayfirst=True, errors="coerce")` fallback;
* a MongoDB database as two in-memory collections (lists of documents), with the
  bulk-insert, upsert, positional-update and pull operations used by the script.
-/

/-- A pandas dataframe cell: `na` is NaN / missing, `str s` is the cell text.
Numeric cells are carried as their textual form. -/
inductive Cell where
  | na : Cell
  | str : String → Cell
deriving DecidableEq, Repr, Inhabited

/-- Models `pandas.isna` on a cell. -/
def pd_isna : Cell → Bool
  | Cell.na => true
  | Cell.str _ => false

/-- Models Python `str(...)` on a cell; `str(float("nan"))` is the text "nan". -/
def pyStr : Cell → String
  | Cell.na => "nan"
  | Cell.str s => s

/-- A Python float value as produced by the sanitizers: the NaN float (also
coming from a NaN cell), a signed infinity (`inf true` is negative), or a
finite value, modelled as a rational (exactly: binary64 rounding of finite
values is outside the model). -/
inductive PFloat where
  | nan : PFloat
  | inf : Bool → PFloat
  | val : ℚ → PFloat
deriving DecidableEq, Repr

/-- Numeric value of a digit character. -/
def digitVal (c : Char) : ℕ := c.toNat - 48

/-- Value of a list of digit characters, most significant first. -/
def digitsToNat (l : List Char) : ℕ :=
  l.foldl (fun a c => 10 * a + digitVal c) 0

/-- Split a character list into its leading digit run and the remainder,
allowing a single underscore between two digits as the Python numeric-literal
grammar does; the underscores are dropped from the returned digits. -/
def takeDigits : List Char → List Char × List Char
  | [] => ([], [])
  | c :: '_' :: c2 :: cs2 =>
    if c.isDigit then
      if c2.isDigit then
        let p := takeDigits (c2 :: cs2)
        (c :: p.1, p.2)
      else ([c], '_' :: c2 :: cs2)
    else ([], c :: '_' :: c2 :: cs2)
  | c :: cs =>
    if c.isDigit then
      let p := takeDigits cs
      (c :: p.1, p.2)
    else ([], c :: cs)

/-- Parse the exponent tail of a float literal (after the `e`): an optional
sign followed by one or more digits consuming the whole remainder. -/
def parseExponent (m : ℚ) (cs : List Char) : Option ℚ :=
  let p : Int × List Char :=
    match cs with
    | '+' :: t => (1, t)
    | '-' :: t => (-1, t)
    | t => (1, t)
  let d := takeDigits p.2
  if d.1 = [] ∨ d.2 ≠ [] then none
  else some (m * (10 : ℚ) ^ (p.1 * (digitsToNat d.1 : Int)))

/-- Parse the remainder after an optional decimal point: either nothing or an
exponent part. -/
def parseAfterMantissa (m : ℚ) : List Char → Option ℚ
  | [] => some m
  | 'e' :: t => parseExponent m t
  | 'E' :: t => parseExponent m t
  | _ => none

/-- Parse an unsigned Python float literal: digits with an optional fractional
part, or a fractional part alone, followed by an optional exponent. -/
def parseUnsignedFloat (cs : List Char) : Option ℚ :=
  let ip := takeDigits cs
  match ip.2 with
  | '.' :: rest =>
    let fp := takeDigits rest
    if ip.1 = [] ∧ fp.1 = [] then none
    else
      parseAfterMantissa
        ((digitsToNat ip.1 : ℚ) + (digitsToNat fp.1 : ℚ) / (10 : ℚ) ^ fp.1.length)
        fp.2
  | rest =>
    if ip.1 = [] then none
    else parseAfterMantissa (digitsToNat ip.1 : ℚ) rest

/-- Whether a character is stripped by Python whitespace stripping. -/
def isSpaceChar (c : Char) : Bool :=
  c = ' ' || c = '\t' || c = '\n' || c = '\r'

/-- Drop leading whitespace characters. -/
def dropWhileSpace : List Char → List Char
  | [] => []
  | c :: cs => if isSpaceChar c then dropWhileSpace cs else c :: cs

/-- Strip whitespace from both ends of a character list (Python `.strip()`). -/
def trimChars (cs : List Char) : List Char :=
  ((dropWhileSpace (dropWhileSpace cs).reverse)).reverse

/-- Split a character list on a separator character; mirrors
`String.splitOn` with a one-character separator. -/
def splitOnChar (sep : Char) : List Char → List (List Char)
  | [] => [[]]
  | c :: cs =>
    let r := splitOnChar sep cs
    if c = sep then [] :: r
    else
      match r with
      | [] => [[c]]
      | h :: t => (c :: h) :: t

/-- The smallest magnitude at which a decimal value overflows to an infinity
under round-to-nearest-even binary64 conversion: 2 ^ 1024 - 2 ^ 970 (half an
ulp above the largest finite double); the literal is verified against that
expression by `doubleOverflowBound_eq` below. -/
def doubleOverflowBound : ℕ :=
  179769313486231580793728971405303415079934132710037826936173778980444968292764750946649017977587207096330286416692887910946555547851940402630657488671505820681908902000708383676273854845817711531764475730270069855571366959622842914819860834936475292719074168444365510704342711559699508093042880177904174497792

/-- Classify a parsed finite decimal value as a Python float: magnitudes
reaching the overflow threshold become the corresponding infinity (as
`float("1e400")` does), everything else stays a finite value (carried as an
exact rational; binary64 rounding of in-range values is outside the model). -/
def pfloatOfRat (q : ℚ) : PFloat :=
  if (doubleOverflowBound : Int) * (q.den : Int) ≤ q.num then PFloat.inf false
  else if q.num ≤ -((doubleOverflowBound : Int) * (q.den : Int)) then PFloat.inf true
  else PFloat.val q

/-- Models Python `float(s)` on a string: surrounding whitespace is stripped,
an optional sign precedes either one of the special literals nan / inf /
infinity (any letter case) or an unsigned numeric literal, whose value
overflows to an infinity beyond the double range. Returns `none` exactly
when the conversion raises `ValueError`. -/
def pyFloatOfString (s : String) : Option PFloat :=
  let p : Bool × List Char :=
    match trimChars s.data with
    | '+' :: t => (false, t)
    | '-' :: t => (true, t)
    | t => (false, t)
  let lower := p.2.map Char.toLower
  if lower = ['n', 'a', 'n'] then some PFloat.nan
  else if lower = ['i', 'n', 'f'] ∨ lower = ['i', 'n', 'f', 'i', 'n', 'i', 't', 'y'] then
    some (PFloat.inf p.1)
  else
    (parseUnsignedFloat p.2).map (fun q => pfloatOfRat (if p.1 then -q else q))

/-- Source `safe_float`: `float(x)` with every exception mapped to `None`.
A NaN cell converts to the NaN float (not to `None`); a textual cell converts
iff it is a numeric or special float literal. -/
def safe_float : Cell → Option PFloat
  | Cell.na => some PFloat.nan
  | Cell.str s => pyFloatOfString s

/-- Python `int(f)` on a float: a finite value is truncated toward zero;
`int` raises (hence `none` under `safe_int`) on NaN (`ValueError`) and on the
infinities (`OverflowError`). -/
def pyIntOfFloat : PFloat → Option Int
  | PFloat.nan => none
  | PFloat.inf _ => none
  | PFloat.val q => some (Int.tdiv q.num (q.den : Int))

/-- Source `safe_int`: `int(float(x))` with every exception mapped to `None`. -/
def safe_int (c : Cell) : Option Int :=
  (safe_float c).bind pyIntOfFloat

/-- Source `is_cancellation`: the invoice number, as text, starts with "C"
(`startswith` with a one-character prefix is a first-character test). -/
def is_cancellation (invoice_no : String) : Bool :=
  match invoice_no.data with
  | c :: _ => c = 'C'
  | [] => false

/-- A parsed datetime value (year, month, day, hour, minute, second). -/
structure DateTime where
  year : ℕ
  month : ℕ
  day : ℕ
  hour : ℕ
  minute : ℕ
  second : ℕ
deriving DecidableEq, Repr

/-- Whether a year is a leap year (Gregorian rule, as Python `datetime` uses). -/
def isLeapYear (y : ℕ) : Bool :=
  (y % 4 = 0 ∧ y % 100 ≠ 0) ∨ y % 400 = 0

/-- Number of days in a month, as validated by the Python `datetime` constructor. -/
def daysInMonth (y m : ℕ) : ℕ :=
  if m = 2 then (if isLeapYear y then 29 else 28)
  else if m = 4 ∨ m = 6 ∨ m = 9 ∨ m = 11 then 30
  else 31

/-- Build a datetime, enforcing the range checks of the Python `datetime`
constructor; out-of-range components raise `ValueError`, modelled as `none`. -/
def mkDateTime (y m d hh mi ss : ℕ) : Option DateTime :=
  if 1 ≤ y ∧ y ≤ 9999 ∧ 1 ≤ m ∧ m ≤ 12 ∧ 1 ≤ d ∧ d ≤ daysInMonth y m ∧
      hh ≤ 23 ∧ mi ≤ 59 ∧ ss ≤ 59 then
    some (DateTime.mk y m d hh mi ss)
  else none

/-- Parse a 1- or 2-digit numeric field of a strptime pattern. -/
def parseNat2 (cs : List Char) : Option ℕ :=
  if 1 ≤ cs.length ∧ cs.length ≤ 2 ∧ cs.all Char.isDigit then
    some (digitsToNat cs)
  else none

/-- Parse the exactly-4-digit year field of a strptime pattern. -/
def parseNat4 (cs : List Char) : Option ℕ :=
  if cs.length = 4 ∧ cs.all Char.isDigit then
    some (digitsToNat cs)
  else none

/-- Models `datetime.strptime(txt, fmt)` for a day-month-year-hour-minute
pattern with the given date separator (the formats DD-MM-YYYY HH:MM and
DD/MM/YYYY HH:MM of the source). -/
def strptimeDMYHM (sep : Char) (txt : List Char) : Option DateTime :=
  match splitOnChar ' ' txt with
  | [ds, ts] =>
    match splitOnChar sep ds, splitOnChar ':' ts with
    | [dd, mm, yy], [hh, mi] =>
      match parseNat2 dd, parseNat2 mm, parseNat4 yy, parseNat2 hh, parseNat2 mi with
      | some d, some m, some y, some h, some min0 => mkDateTime y m d h min0 0
      | _, _, _, _, _ => none
    | _, _ => none
  | _ => none

/-- Models `datetime.strptime(txt, "%Y-%m-%d %H:%M:%S")`. -/
def strptimeYMDHMS (txt : List Char) : Option DateTime :=
  match splitOnChar ' ' txt with
  | [ds, ts] =>
    match splitOnChar '-' ds, splitOnChar ':' ts with
    | [yy, mm, dd], [hh, mi, sec] =>
      match parseNat4 yy, parseNat2 mm, parseNat2 dd, parseNat2 hh,
          parseNat2 mi, parseNat2 sec with
      | some y, some m, some d, some h, some min0, some s0 =>
        mkDateTime y m d h min0 s0
      | _, _, _, _, _, _ => none
    | _, _ => none
  | _ => none

/-- Parse the optional time part of the permissive fallback: empty, H:M or H:M:S. -/
def fallbackTime : List (List Char) → Option (ℕ × ℕ × ℕ)
  | [] => some (0, 0, 0)
  | [ts] =>
    match splitOnChar ':' ts with
    | [hh, mi] =>
      match parseNat2 hh, parseNat2 mi with
      | some h, some m => some (h, m, 0)
      | _, _ => none
    | [hh, mi, sec] =>
      match parseNat2 hh, parseNat2 mi, parseNat2 sec with
      | some h, some m, some s0 => some (h, m, s0)
      | _, _, _ => none
    | _ => none
  | _ => none

/-- Models `pandas.to_datetime(txt, dayfirst=True, errors="coerce")` followed
by `.to_pydatetime()`: a permissive parse of a date with `-` or `/`
separators and an optional time, reading the date day-first unless the first
component is a 4-digit year; the NaT null produced on failure (and returned
unchanged by `.to_pydatetime()`) is modelled as `none`. -/
def pandasToDatetimeDayfirst (txt : List Char) : Option DateTime :=
  match splitOnChar ' ' txt with
  | [] => none
  | ds :: ts =>
    let parts := if ds.contains '/' then splitOnChar '/' ds else splitOnChar '-' ds
    match parts with
    | [a, b, c] =>
      match fallbackTime ts with
      | some hms =>
        if a.length = 4 then
          match parseNat4 a, parseNat2 b, parseNat2 c with
          | some y, some m, some d => mkDateTime y m d hms.1 hms.2.1 hms.2.2
          | _, _, _ => none
        else
          match parseNat2 a, parseNat2 b, parseNat4 c with
          | some d, some m, some y => mkDateTime y m d hms.1 hms.2.1 hms.2.2
          | _, _, _ => none
      | none => none
    | _ => none

/-- Source `parse_invoice_date`: `None` on a missing cell; otherwise the three
strptime formats are tried in order on the stripped text, then the permissive
pandas fallback; `None` when everything fails. -/
def parse_invoice_date : Cell → Option DateTime
  | Cell.na => none
  | Cell.str s =>
    let txt := trimChars s.data
    (strptimeDMYHM '-' txt).orElse fun _ =>
      (strptimeDMYHM '/' txt).orElse fun _ =>
        (strptimeYMDHMS txt).orElse fun _ =>
          pandasToDatetimeDayfirst txt

/-- A raw dataset row. The value columns of the retail dataset; each cell may
be missing (NaN). Column presence is tracked at the frame level. -/
structure Row where
  InvoiceNo : Cell
  StockCode : Cell
  Quantity : Cell
  CustomerID : Cell
  UnitPrice : Cell
  Description : Cell
  InvoiceDate : Cell
  Country : Cell
deriving DecidableEq, Repr, Inhabited

/-- A dataframe: its rows plus presence flags for the two columns whose
presence the source tests (`CustomerID` at the frame level, `Country` inside
the builders). The required columns InvoiceNo, StockCode and Quantity are
assumed present (their cells may still be NaN). -/
structure Frame where
  rows : List Row
  hasCustomerID : Bool
  hasCountry : Bool
deriving Repr

/-- A line item of the transaction-centric document. -/
structure TxnItem where
  stock_code : String
  description : Option String
  unit_price : Option PFloat
  quantity : Option Int
deriving DecidableEq, Repr

/-- The embedded customer reference of the transaction-centric document. -/
structure CustomerRef where
  id : Option Int
  country : Option String
deriving DecidableEq, Repr

/-- A transaction-centric invoice document, keyed by invoice number. -/
structure TxnDoc where
  _id : String
  invoice_date : Option DateTime
  customer : CustomerRef
  items : List TxnItem
  is_cancellation : Bool
deriving DecidableEq, Repr

/-- A line item of an embedded customer-centric invoice (no description). -/
structure CustItem where
  stock_code : String
  quantity : Option Int
  unit_price : Option PFloat
deriving DecidableEq, Repr

/-- An invoice sub-document embedded in a customer-centric document. -/
structure InvoiceSub where
  invoice_no : String
  invoice_date : Option DateTime
  items : List CustItem
  is_cancellation : Bool
deriving DecidableEq, Repr

/-- A customer-centric document, keyed by the (possibly null) customer id;
the invoices array may be absent before the first push creates it. -/
structure CustDoc where
  _id : Option Int
  country : Option String
  invoices : Option (List InvoiceSub)
deriving DecidableEq, Repr

/-- The grouping key of `df.groupby("InvoiceNo")` for one row (after cleaning,
every InvoiceNo cell is textual). -/
def rowKey (r : Row) : String := pyStr r.InvoiceNo

/-- Lexicographic code-point comparison of character lists, the order Python
uses to compare strings (and pandas to sort groupby keys). -/
def lexLeChars : List Char → List Char → Bool
  | [], _ => true
  | _ :: _, [] => false
  | a :: as, b :: bs =>
    if a.toNat < b.toNat then true
    else if b.toNat < a.toNat then false
    else lexLeChars as bs

/-- Python string comparison, code point by code point. -/
def pyStrLe (a b : String) : Bool := lexLeChars a.data b.data

/-- The distinct invoice keys of a row list, in the sorted order pandas
groupby iterates them. -/
def groupKeys (df : List Row) : List String :=
  ((df.map rowKey).dedup).insertionSort (fun a b => pyStrLe a b = true)

/-- Models `df.groupby("InvoiceNo")`: one group per distinct invoice key,
keys in sorted order, each group holding the rows with that key in their
original order. -/
def groupByInvoice (df : List Row) : List (String × List Row) :=
  (groupKeys df).map (fun k => (k, df.filter (fun r => rowKey r = k)))

/-- Source `build_txn_doc`: one transaction-centric document from all rows of
one invoice; date, customer id and country are read from the first row, one
item is built per row in row order. -/
def build_txn_doc (group : Frame) : TxnDoc :=
  let first := group.rows.headI
  let invoice_no := pyStr first.InvoiceNo
  { _id := invoice_no
    invoice_date := parse_invoice_date first.InvoiceDate
    customer :=
      { id := safe_int first.CustomerID
        country := if group.hasCountry then some (pyStr first.Country) else none }
    items := group.rows.map (fun r =>
      { stock_code := pyStr r.StockCode
        description := if pd_isna r.Description then none else some (pyStr r.Description)
        unit_price := safe_float r.UnitPrice
        quantity := safe_int r.Quantity })
    is_cancellation := is_cancellation invoice_no }

/-- One `UpdateOne({_id: cust_id}, {$setOnInsert: {country}, $push:
{invoices}}, upsert=True)` operation as built by `customer_upsert_ops`. -/
structure UpsertOp where
  filter_id : Option Int
  set_on_insert_country : Option String
  push_invoice : InvoiceSub
deriving DecidableEq, Repr

/-- Source `customer_upsert_ops`: one upsert per invoice group, pushing the
group's invoice sub-document onto the customer document of the group's first
row and setting the country only on insert. -/
def customer_upsert_ops (df : Frame) : List UpsertOp :=
  (groupByInvoice df.rows).map (fun p =>
    let first := p.2.headI
    { filter_id := safe_int first.CustomerID
      set_on_insert_country :=
        if df.hasCountry then some (pyStr first.Country) else none
      push_invoice :=
        { invoice_no := p.1
          invoice_date := parse_invoice_date first.InvoiceDate
          items := p.2.map (fun r =>
            { stock_code := pyStr r.StockCode
              quantity := safe_int r.Quantity
              unit_price := safe_float r.UnitPrice })
          is_cancellation := is_cancellation p.1 } })

/-- One entry of the `writeErrors` list of a `BulkWriteError`; only the code
field is inspected by the source. -/
structure WriteError where
  code : Option ℕ
deriving DecidableEq, Repr

/-- The MongoDB state: the two collections written by the loader. -/
structure DB where
  invoices_txn : List TxnDoc
  customers_centric : List CustDoc
deriving DecidableEq, Repr

/-- Models `insert_many(docs, ordered=False)` on a collection keyed by `_id`:
the documents are attempted in order; one whose key is free is appended, one
whose key is taken is skipped and contributes a duplicate-key write error
(code 11000). -/
def insert_many : List TxnDoc → List TxnDoc → List TxnDoc × List WriteError
  | coll, [] => (coll, [])
  | coll, d :: ds =>
    if coll.any (fun e => e._id = d._id) then
      ((insert_many coll ds).1, WriteError.mk (some 11000) :: (insert_many coll ds).2)
    else insert_many (coll ++ [d]) ds

/-- The except-handler of `process_frame` (used for both bulk writes): if
every write error of the `BulkWriteError` has code 11000 the errors are
swallowed, otherwise the exception is re-raised. -/
def ignore_duplicate_key_errors (errs : List WriteError) :
    Except (List WriteError) Unit :=
  if errs.all (fun e => e.code = some 11000) then Except.ok () else Except.error errs

/-- Push onto the invoices array of a matched customer document: the array is
created if absent; `$setOnInsert` does not fire, so country is untouched. -/
def push_to_doc (d : CustDoc) (inv : InvoiceSub) : CustDoc :=
  { d with invoices := some (d.invoices.getD [] ++ [inv]) }

/-- The customer document created when an upsert matches nothing. -/
def upsert_new_doc (op : UpsertOp) : CustDoc :=
  { _id := op.filter_id
    country := op.set_on_insert_country
    invoices := some [op.push_invoice] }

/-- Apply one upsert operation: update the first document matching the filter,
or insert a fresh document when none matches. -/
def apply_upsert : List CustDoc → UpsertOp → List CustDoc
  | [], op => [upsert_new_doc op]
  | d :: ds, op =>
    if d._id = op.filter_id then push_to_doc d op.push_invoice :: ds
    else d :: apply_upsert ds op

/-- Models `bulk_write(ops, ordered=False)` on the customer collection: the
upserts are applied in sequence (upserts produce no write errors here). -/
def bulk_write (coll : List CustDoc) (ops : List UpsertOp) : List CustDoc :=
  ops.foldl apply_upsert coll

/-- The first dropna of `process_frame`: rows whose InvoiceNo, StockCode or
Quantity cell is missing are dropped. -/
def required_kept (df : Frame) : List Row :=
  df.rows.filter (fun r =>
    !pd_isna r.InvoiceNo && !pd_isna r.StockCode && !pd_isna r.Quantity)

/-- The second dropna of `process_frame`: rows whose CustomerID cell is
missing are dropped as well. -/
def clean_rows (df : Frame) : List Row :=
  (required_kept df).filter (fun r => !pd_isna r.CustomerID)

/-- The cleaned rows of a frame re-packaged as a frame with the same columns. -/
def clean_frame (df : Frame) : Frame :=
  { df with rows := clean_rows df }

/-- The transaction-centric documents built by one pass of `process_frame`:
one `build_txn_doc` per invoice group of the cleaned rows. -/
def txn_docs_of (df : Frame) : List TxnDoc :=
  (groupByInvoice (clean_rows df)).map (fun p =>
    build_txn_doc { rows := p.2, hasCustomerID := df.hasCustomerID,
                    hasCountry := df.hasCountry })

/-- The customer upserts built by one pass of `process_frame`. -/
def ops_of (df : Frame) : List UpsertOp :=
  customer_upsert_ops (clean_frame df)

/-- Source `process_frame`: drop rows whose InvoiceNo, StockCode or Quantity
cell is missing, then rows whose CustomerID cell is missing (skipping the
frame entirely when the CustomerID column is absent), group by invoice,
build both document sets and issue the two bulk writes, tolerating
duplicate-key errors. -/
def process_frame (df : Frame) (db : DB) : Except (List WriteError) DB :=
  if df.hasCustomerID then
    let res := insert_many db.invoices_txn (txn_docs_of df)
    match ignore_duplicate_key_errors res.2 with
    | Except.error e => Except.error e
    | Except.ok _ =>
      Except.ok
        { invoices_txn := res.1
          customers_centric := bulk_write db.customers_centric (ops_of df) }
  else Except.ok db

/-- Set the quantity of the first item matching the stock code (the Mongo
positional operator). -/
def set_first_matching_qty : List TxnItem → String → Int → List TxnItem
  | [], _, _ => []
  | it :: its, sc, q =>
    if it.stock_code = sc then TxnItem.mk it.stock_code it.description it.unit_price (some q) :: its
    else it :: set_first_matching_qty its sc q

/-- Models `update_one({_id: inv, "items.stock_code": sc}, {$set:
{"items.$.quantity": q}})`: the first document matching both filter clauses
has its first matching item's quantity set. -/
def update_one_txn : List TxnDoc → String → String → Int → List TxnDoc
  | [], _, _, _ => []
  | d :: ds, inv, sc, q =>
    if d._id = inv ∧ d.items.any (fun it => it.stock_code = sc) then
      { d with items := set_first_matching_qty d.items sc q } :: ds
    else d :: update_one_txn ds inv sc q

/-- Source `update_item_quantity`: a single update on the transaction-centric
collection; the customer-centric collection is not touched. -/
def update_item_quantity (db : DB) (invoice_no stock_code : String)
    (new_qty : Int) : DB :=
  { db with invoices_txn := update_one_txn db.invoices_txn invoice_no stock_code new_qty }

/-- Models `delete_one({_id: inv})`: remove the first matching document. -/
def delete_one_txn : List TxnDoc → String → List TxnDoc
  | [], _ => []
  | d :: ds, inv => if d._id = inv then ds else d :: delete_one_txn ds inv

/-- The `$pull` of `delete_invoice` on one customer document: every embedded
invoice whose invoice_no equals the deleted id is removed. -/
def pull_invoice (c : CustDoc) (inv : String) : CustDoc :=
  { c with invoices := c.invoices.map (fun l => l.filter (fun i => i.invoice_no != inv)) }

/-- Source `delete_invoice`: delete the transaction-centric document by id and
pull the matching embedded invoice from every customer-centric document
(`update_many` with an empty filter). -/
def delete_invoice (db : DB) (invoice_no : String) : DB :=
  { invoices_txn := delete_one_txn db.invoices_txn invoice_no
    customers_centric := db.customers_centric.map (fun c => pull_invoice c invoice_no) }

/-- Models `find({_id: id})` on the transaction-centric collection. -/
def find_txn (coll : List TxnDoc) (id0 : String) : List TxnDoc :=
  coll.filter (fun d => d._id = id0)

/-- The embedded invoices of a customer document that reference an invoice id. -/
def embedded_refs (c : CustDoc) (id0 : String) : List InvoiceSub :=
  (c.invoices.getD []).filter (fun i => i.invoice_no = id0)

/-- Total number of embedded invoices across the customer-centric collection. -/
def totalInvoices (coll : List CustDoc) : ℕ :=
  (coll.map (fun c => (c.invoices.getD []).length)).sum

/-- Number of occurrences of one invoice sub-document across all invoices
arrays of the customer-centric collection. -/
def countEmbedded (coll : List CustDoc) (inv : InvoiceSub) : ℕ :=
  (coll.map (fun c => (c.invoices.getD []).count inv)).sum

/-! Concrete rows, frames and databases used by the witness theorems. -/

/-- A sample dataset row (the worked example of the dataset). -/
def wrow1 : Row := ⟨Cell.str "536365", Cell.str "85123A", Cell.str "6", Cell.str "17850", Cell.str "2.55", Cell.str "WHITE HANGING HEART", Cell.str "01-12-2010 08:26", Cell.str "United Kingdom"⟩

/-- A second row of the same invoice, with an unparseable quantity and missing
unit price and description. -/
def wrow2 : Row := ⟨Cell.str "536365", Cell.str "71053", Cell.str "abc", Cell.str "17850", Cell.na, Cell.na, Cell.str "01-12-2010 08:26", Cell.str "United Kingdom"⟩

/-- A two-row invoice group. -/
def wgrp : Frame := ⟨[wrow1, wrow2], true, true⟩

/-- A minimal row of invoice I1 for customer 7. -/
def c3row1 : Row := ⟨Cell.str "I1", Cell.str "S1", Cell.str "2", Cell.str "7", Cell.na, Cell.na, Cell.na, Cell.na⟩

/-- A minimal row of cancellation invoice C9 for customer 8. -/
def c3row2 : Row := ⟨Cell.str "C9", Cell.str "S1", Cell.str "1", Cell.str "8", Cell.na, Cell.na, Cell.na, Cell.na⟩

/-- A two-invoice frame without a Country column. -/
def c3df : Frame := ⟨[c3row1, c3row2], true, false⟩

/-- The empty database. -/
def c3db0 : DB := ⟨[], []⟩

/-- The transaction document produced for invoice I1. -/
def c3txnI1 : TxnDoc := ⟨"I1", none, ⟨some 7, none⟩, [⟨"S1", none, some PFloat.nan, some 2⟩], false⟩

/-- The transaction document produced for invoice C9. -/
def c3txnC9 : TxnDoc := ⟨"C9", none, ⟨some 8, none⟩, [⟨"S1", none, some PFloat.nan, some 1⟩], true⟩

/-- The embedded invoice sub-document for I1. -/
def c3subI1 : InvoiceSub := ⟨"I1", none, [⟨"S1", some 2, some PFloat.nan⟩], false⟩

/-- The embedded invoice sub-document for C9. -/
def c3subC9 : InvoiceSub := ⟨"C9", none, [⟨"S1", some 1, some PFloat.nan⟩], true⟩

/-- The database after one load pass of `c3df` on the empty database. -/
def c3db1 : DB := ⟨[c3txnC9, c3txnI1], [⟨some 8, none, some [c3subC9]⟩, ⟨some 7, none, some [c3subI1]⟩]⟩

/-- The database after a second identical load pass: same transaction
collection, duplicated embedded invoices. -/
def c3db2 : DB := ⟨[c3txnC9, c3txnI1], [⟨some 8, none, some [c3subC9, c3subC9]⟩, ⟨some 7, none, some [c3subI1, c3subI1]⟩]⟩

/-- The upsert operation produced for the I1 group. -/
def c3opI1 : UpsertOp := ⟨some 7, none, c3subI1⟩

/-- A one-invoice database used by the deletion witness. -/
def c2db : DB := ⟨[c3txnI1], [⟨some 7, none, some [c3subI1]⟩]⟩

/-- An existing customer document with a country, used by the upsert witness. -/
def c5coll : List CustDoc := [⟨some 7, some "France", some [c3subC9]⟩]

/-- A row lacking a quantity (dropped by the first dropna). -/
def c9rowQ : Row := ⟨Cell.str "I1", Cell.str "S1", Cell.na, Cell.str "7", Cell.na, Cell.na, Cell.na, Cell.na⟩

/-- A row lacking a customer id (dropped by the second dropna). -/
def c9rowC : Row := ⟨Cell.str "I2", Cell.str "S1", Cell.str "1", Cell.na, Cell.na, Cell.na, Cell.na, Cell.na⟩

/-- A frame with one usable row and two droppable rows. -/
def c9df : Frame := ⟨[c3row1, c9rowQ, c9rowC], true, false⟩

/-! Helper lemmas about grouping. -/

theorem mem_groupKeys {df : List Row} {k : String} :
    k ∈ groupKeys df ↔ ∃ r ∈ df, rowKey r = k := by
  unfold groupKeys
  rw [(List.perm_insertionSort _ _).mem_iff]
  simp [List.mem_dedup]

theorem nodup_groupKeys (df : List Row) : (groupKeys df).Nodup := by
  unfold groupKeys
  exact ((List.perm_insertionSort _ _).nodup_iff).2 (List.nodup_dedup _)

theorem groupByInvoice_keys (df : List Row) :
    (groupByInvoice df).map Prod.fst = groupKeys df := by
  unfold groupByInvoice
  rw [List.map_map]
  exact List.map_id _

theorem mem_groupByInvoice {df : List Row} {p : String × List Row}
    (h : p ∈ groupByInvoice df) :
    p.2 = df.filter (fun r => rowKey r = p.1) ∧ p.2 ≠ [] := by
  obtain ⟨k, hk, hp⟩ := List.mem_map.1 h
  obtain ⟨r, hr, hrk⟩ := mem_groupKeys.1 hk
  subst hp
  refine ⟨rfl, ?_⟩
  have hmem : r ∈ df.filter (fun r => rowKey r = k) := by
    simp [List.mem_filter, hr, hrk]
  intro hnil
  have hnil2 : df.filter (fun r => rowKey r = k) = [] := hnil
  rw [hnil2] at hmem
  exact (List.not_mem_nil r) hmem

theorem headI_rowKey {df : List Row} {p : String × List Row}
    (h : p ∈ groupByInvoice df) : rowKey p.2.headI = p.1 := by
  obtain ⟨hfil, hne⟩ := mem_groupByInvoice h
  cases hm : p.2 with
  | nil => exact absurd hm hne
  | cons a t =>
    have ha : a ∈ p.2 := by rw [hm]; exact List.mem_cons_self a t
    rw [hfil] at ha
    have := List.of_mem_filter ha
    simp at this
    simpa [hm] using this

theorem exists_group {df : List Row} {r : Row} (h : r ∈ df) :
    ∃ p ∈ groupByInvoice df, p.1 = rowKey r ∧ r ∈ p.2 := by
  refine ⟨(rowKey r, df.filter (fun x => rowKey x = rowKey r)), ?_, rfl, ?_⟩
  · exact List.mem_map.2 ⟨rowKey r, mem_groupKeys.2 ⟨r, h, rfl⟩, rfl⟩
  · simp [List.mem_filter, h]

/-! Helper lemmas about the bulk insert and the duplicate-key policy. -/

theorem insert_many_errors_dup : ∀ (coll docs : List TxnDoc),
    ((insert_many coll docs).2).all (fun e => e.code = some 11000) = true := by
  intro coll docs
  induction docs generalizing coll with
  | nil => simp [insert_many]
  | cons d ds ih =>
    unfold insert_many
    by_cases h : (List.any coll fun e => e._id = d._id) = true
    · simp [h, ih]
    · simp only [h]
      simp [ih]

theorem mem_insert_many_left : ∀ {coll docs : List TxnDoc} (e : TxnDoc),
    e ∈ coll → e ∈ (insert_many coll docs).1 := by
  intro coll docs
  induction docs generalizing coll with
  | nil => intro e he; simpa [insert_many] using he
  | cons d ds ih =>
    intro e he
    unfold insert_many
    by_cases h : (List.any coll fun x => x._id = d._id) = true
    · rw [if_pos h]
      exact ih e he
    · rw [if_neg h]
      exact ih e (List.mem_append_left _ he)

theorem insert_many_covers : ∀ {coll docs : List TxnDoc} (d : TxnDoc),
    d ∈ docs → ∃ e ∈ (insert_many coll docs).1, e._id = d._id := by
  intro coll docs
  induction docs generalizing coll with
  | nil => intro d hd; exact absurd hd (List.not_mem_nil d)
  | cons d0 ds ih =>
    intro d hd
    unfold insert_many
    rcases List.mem_cons.1 hd with hd | hd
    · subst hd
      by_cases h : (List.any coll fun x => x._id = d._id) = true
      · obtain ⟨e, he, heq⟩ := List.any_eq_true.1 h
        refine ⟨e, ?_, by simpa using heq⟩
        simp only [h, if_pos]
        exact mem_insert_many_left e he
      · refine ⟨d, ?_, rfl⟩
        simp only [h, if_neg]
        exact mem_insert_many_left d (List.mem_append_right _ (List.mem_singleton.2 rfl))
    · by_cases h : (List.any coll fun x => x._id = d0._id) = true
      · obtain ⟨e, he, heq⟩ := @ih coll d hd
        exact ⟨e, by simp only [h, if_pos]; exact he, heq⟩
      · obtain ⟨e, he, heq⟩ := @ih (coll ++ [d0]) d hd
        exact ⟨e, by simp only [h, if_neg]; exact he, heq⟩

theorem insert_many_all_dup : ∀ {coll docs : List TxnDoc},
    (∀ d ∈ docs, ∃ e ∈ coll, e._id = d._id) → (insert_many coll docs).1 = coll := by
  intro coll docs
  induction docs generalizing coll with
  | nil => intro _; simp [insert_many]
  | cons d ds ih =>
    intro h
    obtain ⟨e, he, heq⟩ := h d (List.mem_cons_self d ds)
    have hany : (List.any coll fun x => x._id = d._id) = true :=
      List.any_eq_true.2 ⟨e, he, by simp [heq]⟩
    unfold insert_many
    simp only [hany, if_pos]
    exact ih (fun d' hd' => h d' (List.mem_cons_of_mem d hd'))

theorem ignore_insert_many_ok (coll docs : List TxnDoc) :
    ignore_duplicate_key_errors (insert_many coll docs).2 = Except.ok () := by
  unfold ignore_duplicate_key_errors
  simp [insert_many_errors_dup]

theorem process_frame_ok (df : Frame) (db : DB) (hc : df.hasCustomerID = true) :
    process_frame df db = Except.ok
      { invoices_txn := (insert_many db.invoices_txn (txn_docs_of df)).1
        customers_centric := bulk_write db.customers_centric (ops_of df) } := by
  unfold process_frame
  simp [hc, ignore_insert_many_ok]

/-! Helper lemmas about the customer upserts. -/

theorem totalInvoices_apply_upsert (coll : List CustDoc) (op : UpsertOp) :
    totalInvoices (apply_upsert coll op) = totalInvoices coll + 1 := by
  induction coll with
  | nil => simp [apply_upsert, totalInvoices, upsert_new_doc]
  | cons d ds ih =>
    unfold apply_upsert
    by_cases h : d._id = op.filter_id
    · rw [if_pos h]
      simp [totalInvoices, push_to_doc]
      omega
    · rw [if_neg h]
      simp only [totalInvoices, List.map_cons, List.sum_cons] at ih ⊢
      omega

theorem countEmbedded_apply_upsert (coll : List CustDoc) (op : UpsertOp)
    (inv : InvoiceSub) :
    countEmbedded (apply_upsert coll op) inv =
      countEmbedded coll inv + (if op.push_invoice = inv then 1 else 0) := by
  induction coll with
  | nil =>
    simp [apply_upsert, countEmbedded, upsert_new_doc, List.count_singleton']
  | cons d ds ih =>
    unfold apply_upsert
    by_cases h : d._id = op.filter_id
    · rw [if_pos h]
      simp [countEmbedded, push_to_doc, List.count_append, List.count_singleton']
      omega
    · rw [if_neg h]
      simp only [countEmbedded, List.map_cons, List.sum_cons] at ih ⊢
      omega

theorem countEmbedded_bulk_write (ops : List UpsertOp) :
    ∀ (coll : List CustDoc) (inv : InvoiceSub),
    countEmbedded (bulk_write coll ops) inv =
      countEmbedded coll inv + (ops.map (fun o => o.push_invoice)).count inv := by
  induction ops with
  | nil => intro coll inv; simp [bulk_write]
  | cons op ops ih =>
    intro coll inv
    have hstep : bulk_write coll (op :: ops) = bulk_write (apply_upsert coll op) ops := rfl
    rw [hstep, ih, countEmbedded_apply_upsert]
    by_cases h : op.push_invoice = inv
    · simp [h, List.count_cons]
      omega
    · simp [List.count_cons, h]

theorem apply_upsert_forall2 (coll : List CustDoc) (op : UpsertOp)
    (hex : ∃ c ∈ coll, c._id = op.filter_id) :
    List.Forall₂ (fun c0 c => c._id = c0._id ∧ c.country = c0.country ∧
        (c.invoices = c0.invoices ∨
          c.invoices = some (c0.invoices.getD [] ++ [op.push_invoice])))
      coll (apply_upsert coll op) := by
  induction coll with
  | nil =>
    obtain ⟨c, hc, _⟩ := hex
    exact absurd hc (List.not_mem_nil c)
  | cons d ds ih =>
    unfold apply_upsert
    by_cases h : d._id = op.filter_id
    · rw [if_pos h]
      refine List.Forall₂.cons ⟨rfl, rfl, Or.inr rfl⟩ ?_
      exact List.forall₂_same.2 (fun c _ => ⟨rfl, rfl, Or.inl rfl⟩)
    · rw [if_neg h]
      refine List.Forall₂.cons ⟨rfl, rfl, Or.inl rfl⟩ ?_
      obtain ⟨c, hc, hcid⟩ := hex
      rcases List.mem_cons.1 hc with hc | hc
      · exact absurd (hc ▸ hcid) h
      · exact ih ⟨c, hc, hcid⟩

/-! Helper lemmas about the quantity update and the invoice deletion. -/

theorem set_first_matching_qty_forall2 (sc : String) (q : Int) :
    ∀ its : List TxnItem,
    List.Forall₂ (fun a b => b = a ∨
        (a.stock_code = sc ∧ b.stock_code = a.stock_code ∧
         b.description = a.description ∧ b.unit_price = a.unit_price ∧
         b.quantity = some q))
      its (set_first_matching_qty its sc q) := by
  intro its
  induction its with
  | nil => exact List.Forall₂.nil
  | cons it its ih =>
    unfold set_first_matching_qty
    by_cases h : it.stock_code = sc
    · rw [if_pos h]
      exact List.Forall₂.cons (Or.inr ⟨h, rfl, rfl, rfl, rfl⟩)
        (List.forall₂_same.2 (fun x _ => Or.inl rfl))
    · rw [if_neg h]
      exact List.Forall₂.cons (Or.inl rfl) ih

theorem update_one_txn_forall2 (inv sc : String) (q : Int) :
    ∀ coll : List TxnDoc,
    List.Forall₂ (fun d0 d => d = d0 ∨
        (d0._id = inv ∧ d._id = d0._id ∧ d.invoice_date = d0.invoice_date ∧
         d.customer = d0.customer ∧ d.is_cancellation = d0.is_cancellation ∧
         List.Forall₂ (fun a b => b = a ∨
             (a.stock_code = sc ∧ b.stock_code = a.stock_code ∧
              b.description = a.description ∧ b.unit_price = a.unit_price ∧
              b.quantity = some q))
           d0.items d.items))
      coll (update_one_txn coll inv sc q) := by
  intro coll
  induction coll with
  | nil => exact List.Forall₂.nil
  | cons d ds ih =>
    unfold update_one_txn
    by_cases h : d._id = inv ∧ (d.items.any fun it => it.stock_code = sc) = true
    · rw [if_pos h]
      refine List.Forall₂.cons
        (Or.inr ⟨h.1, rfl, rfl, rfl, rfl, set_first_matching_qty_forall2 sc q d.items⟩)
        (List.forall₂_same.2 (fun x _ => Or.inl rfl))
    · rw [if_neg h]
      exact List.Forall₂.cons (Or.inl rfl) ih

theorem delete_one_txn_find (id0 : String) :
    ∀ coll : List TxnDoc, (coll.map TxnDoc._id).Nodup →
    find_txn (delete_one_txn coll id0) id0 = [] := by
  intro coll
  induction coll with
  | nil => intro _; rfl
  | cons d ds ih =>
    intro hn
    rw [List.map_cons, List.nodup_cons] at hn
    unfold delete_one_txn
    by_cases h : d._id = id0
    · rw [if_pos h]
      unfold find_txn
      rw [List.filter_eq_nil_iff]
      intro a ha
      have hmem : a._id ∈ ds.map TxnDoc._id := List.mem_map.2 ⟨a, ha, rfl⟩
      simp only [decide_eq_true_eq]
      intro heq
      rw [heq, ← h] at hmem
      exact hn.1 hmem
    · rw [if_neg h]
      unfold find_txn
      rw [List.filter_cons]
      simp only [h, decide_False]
      simpa [find_txn] using ih hn.2

theorem mem_delete_one_txn (id0 : String) :
    ∀ (coll : List TxnDoc) (d : TxnDoc), d ∈ coll → d._id ≠ id0 →
    d ∈ delete_one_txn coll id0 := by
  intro coll
  induction coll with
  | nil => intro d hd; exact absurd hd (List.not_mem_nil d)
  | cons d0 ds ih =>
    intro d hd hne
    unfold delete_one_txn
    by_cases h : d0._id = id0
    · rw [if_pos h]
      rcases List.mem_cons.1 hd with hd | hd
      · exact absurd (hd ▸ h) hne
      · exact hd
    · rw [if_neg h]
      rcases List.mem_cons.1 hd with hd | hd
      · exact hd ▸ List.mem_cons_self _ _
      · exact List.mem_cons_of_mem _ (ih d hd hne)

theorem embedded_refs_pull (c : CustDoc) (id0 : String) :
    embedded_refs (pull_invoice c id0) id0 = [] := by
  unfold embedded_refs pull_invoice
  cases hi : c.invoices with
  | none => rfl
  | some l =>
    simp only [Option.map_some', Option.getD_some]
    rw [List.filter_filter, List.filter_eq_nil_iff]
    intro a _
    simp [bne]

theorem forall2_map_self {α : Type} (f : α → α) (rel : α → α → Prop)
    (h : ∀ a, rel a (f a)) : ∀ l : List α, List.Forall₂ rel l (l.map f) := by
  intro l
  induction l with
  | nil => exact List.Forall₂.nil
  | cons a l ih => exact List.Forall₂.cons (h a) ih

theorem ops_push_invoice_no (df : Frame) :
    (customer_upsert_ops df).map (fun o => o.push_invoice.invoice_no) =
      groupKeys df.rows := by
  unfold customer_upsert_ops
  rw [List.map_map]
  exact groupByInvoice_keys df.rows

theorem nodup_ops_push (df : Frame) :
    ((customer_upsert_ops df).map (fun o => o.push_invoice)).Nodup := by
  apply List.Nodup.of_map (fun i : InvoiceSub => i.invoice_no)
  rw [List.map_map]
  have h := ops_push_invoice_no df
  rw [show ((fun i : InvoiceSub => i.invoice_no) ∘ fun o : UpsertOp => o.push_invoice)
      = (fun o : UpsertOp => o.push_invoice.invoice_no) from rfl, h]
  exact nodup_groupKeys df.rows

theorem count_push_one {df : Frame} {op : UpsertOp}
    (hop : op ∈ customer_upsert_ops df) :
    ((customer_upsert_ops df).map (fun o => o.push_invoice)).count op.push_invoice
      = 1 :=
  List.count_eq_one_of_mem (nodup_ops_push df)
    (List.mem_map.2 ⟨op, hop, rfl⟩)

theorem tdiv_num_den_nonneg (q : ℚ) (hq : 0 ≤ q) :
    Int.tdiv q.num (q.den : Int) = ⌊q⌋ := by
  rw [Int.tdiv_eq_ediv (Rat.num_nonneg.2 hq) (by positivity)]
  exact Rat.floor_def.symm

theorem tdiv_num_den_neg (q : ℚ) (hq : q < 0) :
    Int.tdiv q.num (q.den : Int) = ⌈q⌉ := by
  have h := tdiv_num_den_nonneg (-q) (by linarith)
  rw [Rat.num_neg_eq_neg_num, Rat.den_neg_eq_den, Int.neg_tdiv, Int.floor_neg] at h
  exact neg_inj.1 h

/-- C4: for every bulk write of the Batch Writer, a `BulkWriteError` whose
write errors are all duplicate-key conflicts (code 11000) is swallowed and
the pass succeeds; if any error of another kind is present, the exception is
re-raised and surfaced to the caller. -/
theorem bulk_write_error_policy (errs : List WriteError) :
    ((∀ e ∈ errs, e.code = some 11000) →
      ignore_duplicate_key_errors errs = Except.ok ()) ∧
    ((∃ e ∈ errs, e.code ≠ some 11000) →
      ignore_duplicate_key_errors errs = Except.error errs) := by
  constructor
  · intro h
    have hcond : (errs.all fun e => e.code = some 11000) = true := by
      rw [List.all_eq_true]
      intro e he
      simpa using h e he
    simp [ignore_duplicate_key_errors, hcond]
  · rintro ⟨e, he, hne⟩
    have hcond : (errs.all fun e => e.code = some 11000) = false := by
      rw [List.all_eq_false]
      exact ⟨e, he, by simpa using hne⟩
    simp [ignore_duplicate_key_errors, hcond]

/-- Concrete instances of the duplicate-key policy: an all-11000 error set is
swallowed, a mixed error set is re-raised. -/
theorem bulk_write_error_policy_witness :
    ignore_duplicate_key_errors
        [WriteError.mk (some 11000), WriteError.mk (some 11000)] = Except.ok () ∧
    ignore_duplicate_key_errors
        [WriteError.mk (some 11000), WriteError.mk (some 121)] =
      Except.error [WriteError.mk (some 11000), WriteError.mk (some 121)] :=
  ⟨(bulk_write_error_policy _).1 (by decide),
   (bulk_write_error_policy _).2 ⟨WriteError.mk (some 121), by decide, by decide⟩⟩

/-- C6: `update_item_quantity` changes nothing in the customer-centric
collection, and in the transaction-centric collection every document is
either unchanged or has the same id, date, customer and cancellation flag
with its items pointwise unchanged except that an item whose stock code
matches has its quantity set to the new value and all other fields kept. -/
theorem update_item_quantity_txn_only (db : DB) (invoice_no stock_code : String)
    (new_qty : Int) :
    (update_item_quantity db invoice_no stock_code new_qty).customers_centric =
      db.customers_centric ∧
    List.Forall₂ (fun d0 d => d = d0 ∨
        (d0._id = invoice_no ∧ d._id = d0._id ∧ d.invoice_date = d0.invoice_date ∧
         d.customer = d0.customer ∧ d.is_cancellation = d0.is_cancellation ∧
         List.Forall₂ (fun a b => b = a ∨
             (a.stock_code = stock_code ∧ b.stock_code = a.stock_code ∧
              b.description = a.description ∧ b.unit_price = a.unit_price ∧
              b.quantity = some new_qty))
           d0.items d.items))
      db.invoices_txn
      (update_item_quantity db invoice_no stock_code new_qty).invoices_txn :=
  ⟨rfl, update_one_txn_forall2 invoice_no stock_code new_qty db.invoices_txn⟩

/-- C7: `parse_invoice_date` returns null on a missing cell; on text it tries
the three strptime formats in order and then the permissive day-first pandas
fallback, and it returns null (rather than raising) exactly when every
attempt fails; the empty string is such a case. -/
theorem parse_invoice_date_policy :
    parse_invoice_date Cell.na = none ∧
    (∀ s : String, parse_invoice_date (Cell.str s) =
      ((strptimeDMYHM '-' (trimChars s.data)).orElse fun _ =>
        ((strptimeDMYHM '/' (trimChars s.data)).orElse fun _ =>
          ((strptimeYMDHMS (trimChars s.data)).orElse fun _ =>
            pandasToDatetimeDayfirst (trimChars s.data))))) ∧
    (∀ s : String, parse_invoice_date (Cell.str s) = none ↔
      (strptimeDMYHM '-' (trimChars s.data) = none ∧
       strptimeDMYHM '/' (trimChars s.data) = none ∧
       strptimeYMDHMS (trimChars s.data) = none ∧
       pandasToDatetimeDayfirst (trimChars s.data) = none)) ∧
    parse_invoice_date (Cell.str "") = none := by
  refine ⟨rfl, fun s => rfl, fun s => ?_, by decide⟩
  show ((strptimeDMYHM '-' (trimChars s.data)).orElse fun _ =>
      ((strptimeDMYHM '/' (trimChars s.data)).orElse fun _ =>
        ((strptimeYMDHMS (trimChars s.data)).orElse fun _ =>
          pandasToDatetimeDayfirst (trimChars s.data)))) = none ↔ _
  cases h1 : strptimeDMYHM '-' (trimChars s.data) <;>
    cases h2 : strptimeDMYHM '/' (trimChars s.data) <;>
      cases h3 : strptimeYMDHMS (trimChars s.data) <;>
        cases h4 : pandasToDatetimeDayfirst (trimChars s.data) <;>
          simp [Option.orElse]

/-- C1: for a non-empty group of rows sharing one invoice number,
`build_txn_doc` returns a document with exactly one item per input row, in
input row order (the i-th item is the sanitization of the i-th row), and
takes invoice date, customer id and country from the first row. -/
theorem build_txn_doc_one_line_per_row (g : Frame) (_hne : g.rows ≠ [])
    (_hom : ∀ r ∈ g.rows, r.InvoiceNo = g.rows.headI.InvoiceNo) :
    (build_txn_doc g).items.length = g.rows.length ∧
    (∀ i (hi : i < g.rows.length),
      (build_txn_doc g).items[i]? = some
        { stock_code := pyStr (g.rows.get ⟨i, hi⟩).StockCode
          description := if pd_isna (g.rows.get ⟨i, hi⟩).Description then none
            else some (pyStr (g.rows.get ⟨i, hi⟩).Description)
          unit_price := safe_float (g.rows.get ⟨i, hi⟩).UnitPrice
          quantity := safe_int (g.rows.get ⟨i, hi⟩).Quantity }) ∧
    (build_txn_doc g).invoice_date = parse_invoice_date g.rows.headI.InvoiceDate ∧
    (build_txn_doc g).customer.id = safe_int g.rows.headI.CustomerID ∧
    (build_txn_doc g).customer.country =
      (if g.hasCountry then some (pyStr g.rows.headI.Country) else none) ∧
    (build_txn_doc g)._id = pyStr g.rows.headI.InvoiceNo := by
  refine ⟨?_, ?_, rfl, rfl, rfl, rfl⟩
  · simp [build_txn_doc]
  · intro i hi
    show (g.rows.map _)[i]? = _
    rw [List.getElem?_map, List.getElem?_eq_getElem hi]
    rfl

/-- Concrete instance of C1 on a two-row group: two items, the second item
sanitized from the second row, identifying fields from the first row. -/
theorem build_txn_doc_one_line_per_row_witness :
    (build_txn_doc wgrp).items.length = wgrp.rows.length ∧
    (build_txn_doc wgrp).items[1]? =
      some ⟨"71053", none, some PFloat.nan, none⟩ ∧
    (build_txn_doc wgrp)._id = "536365" := by
  have H := build_txn_doc_one_line_per_row wgrp (by decide) (by decide)
  exact ⟨H.1, H.2.1 1 (by decide), H.2.2.2.2.2⟩

/-- C8: `safe_float` and `safe_int` return null on a failed conversion
instead of raising (`none` is the only failure outcome, and it occurs for a
textual cell exactly when the float conversion fails); in particular a row
whose quantity is the unparseable text "abc" yields a built Line with a null
quantity rather than an error. -/
theorem safe_conversions_null (g : Frame) (i : ℕ) (hi : i < g.rows.length)
    (hq : (g.rows.get ⟨i, hi⟩).Quantity = Cell.str "abc") :
    safe_float (Cell.str "abc") = none ∧
    safe_int (Cell.str "abc") = none ∧
    (∀ s : String, safe_float (Cell.str s) = none ↔ pyFloatOfString s = none) ∧
    (∃ it, (build_txn_doc g).items[i]? = some it ∧ it.quantity = none) := by
  refine ⟨by decide, by decide, fun s => ?_, ?_⟩
  · simp [safe_float]
  · have hgi : (build_txn_doc g).items[i]? = some
        { stock_code := pyStr (g.rows.get ⟨i, hi⟩).StockCode
          description := if pd_isna (g.rows.get ⟨i, hi⟩).Description then none
            else some (pyStr (g.rows.get ⟨i, hi⟩).Description)
          unit_price := safe_float (g.rows.get ⟨i, hi⟩).UnitPrice
          quantity := safe_int (g.rows.get ⟨i, hi⟩).Quantity } := by
      show (g.rows.map _)[i]? = _
      rw [List.getElem?_map, List.getElem?_eq_getElem hi]
      rfl
    refine ⟨_, hgi, ?_⟩
    show safe_int (g.rows.get ⟨i, hi⟩).Quantity = none
    rw [hq]
    decide

/-- Concrete instance of C8: the second row of the sample group carries
quantity "abc" and its built Line has a null quantity. -/
theorem safe_conversions_null_witness :
    safe_float (Cell.str "abc") = none ∧
    safe_int (Cell.str "abc") = none ∧
    (build_txn_doc wgrp).items[1]? =
      some ⟨"71053", none, some PFloat.nan, none⟩ := by
  have H := safe_conversions_null wgrp 1 (by decide) (by decide)
  exact ⟨H.1, H.2.1, by rfl⟩

/-- The overflow threshold literal is 2 ^ 1024 - 2 ^ 970. -/
theorem doubleOverflowBound_eq : doubleOverflowBound = 2 ^ 1024 - 2 ^ 970 := by
  norm_num [doubleOverflowBound]

set_option maxRecDepth 4000 in
/-- C10 counterexample: the claim that only inputs rejected by the float
conversion yield null is false. Python `float` accepts "nan", "inf" and the
overflowing literal "1e400" (the last becoming an infinity), yet `int` then
raises on each, so `safe_int` returns null on inputs the float conversion
accepts. -/
theorem safe_int_truncates_counterexample :
    safe_float (Cell.str "nan") = some PFloat.nan ∧
    safe_float (Cell.str "inf") = some (PFloat.inf false) ∧
    safe_float (Cell.str "1e400") = some (PFloat.inf false) ∧
    safe_int (Cell.str "nan") = none ∧
    safe_int (Cell.str "inf") = none ∧
    safe_int (Cell.str "1e400") = none := by
  refine ⟨by decide, by decide, ?_, by decide, by decide, ?_⟩
  · show (parseUnsignedFloat ('1' :: 'e' :: '4' :: '0' :: '0' :: [])).map _ = _
    with_unfolding_all rfl
  · show ((parseUnsignedFloat ('1' :: 'e' :: '4' :: '0' :: '0' :: [])).map _).bind _ = _
    with_unfolding_all rfl

/-- C10 (amended): `safe_int` converts through `float` before `int`; a
decimal string such as "6.7" yields the integer part truncated toward zero
(6, and -6 for "-6.7") rather than null. At the int stage a finite float
value is truncated toward zero — a floor for non-negative values, a ceiling
for negative ones — while a NaN or infinite float value makes `int` raise,
recovered to null; hence null arises exactly when the float conversion fails
or returns a non-finite value, not only when it rejects the input. (Finite
float values are modelled as exact rationals; string inputs whose binary64
rounding crosses an integer boundary are outside the model, so the
string-level truncation is asserted at the concrete examples only.) -/
theorem safe_int_truncates_amended :
    safe_int (Cell.str "6.7") = some 6 ∧
    safe_int (Cell.str "-6.7") = some (-6) ∧
    (∀ q : ℚ, pyIntOfFloat (PFloat.val q) = some (Int.tdiv q.num (q.den : Int))) ∧
    (∀ q : ℚ, 0 ≤ q → Int.tdiv q.num (q.den : Int) = ⌊q⌋) ∧
    (∀ q : ℚ, q < 0 → Int.tdiv q.num (q.den : Int) = ⌈q⌉) ∧
    pyIntOfFloat PFloat.nan = none ∧
    (∀ b : Bool, pyIntOfFloat (PFloat.inf b) = none) ∧
    (∀ c : Cell, safe_int c = none ↔
      (safe_float c = none ∨ safe_float c = some PFloat.nan ∨
       safe_float c = some (PFloat.inf false) ∨
       safe_float c = some (PFloat.inf true))) := by
  refine ⟨by with_unfolding_all rfl, by with_unfolding_all rfl, fun q => rfl,
    ?_, ?_, rfl, fun b => rfl, ?_⟩
  · intro q hq
    exact tdiv_num_den_nonneg q hq
  · intro q hq
    exact tdiv_num_den_neg q hq
  · intro c
    cases h : safe_float c with
    | none => simp [safe_int, h]
    | some f =>
      cases f with
      | nan => simp [safe_int, h, pyIntOfFloat]
      | inf b => cases b <;> simp [safe_int, h, pyIntOfFloat]
      | val q => simp [safe_int, h, pyIntOfFloat]

/-- Concrete instance of the amended C10: truncation of a finite value at
the int stage (floor for the non-negative 7, ceiling for the negative -2),
and null for the NaN float obtained from the accepted input "nan". -/
theorem safe_int_truncates_amended_witness :
    pyIntOfFloat (PFloat.val ((7 : ℕ) : ℚ)) =
      some (Int.tdiv ((7 : ℕ) : ℚ).num ((((7 : ℕ) : ℚ)).den : Int)) ∧
    Int.tdiv ((7 : ℕ) : ℚ).num ((((7 : ℕ) : ℚ)).den : Int) = ⌊((7 : ℕ) : ℚ)⌋ ∧
    Int.tdiv ((-2 : ℤ) : ℚ).num ((((-2 : ℤ) : ℚ)).den : Int) = ⌈((-2 : ℤ) : ℚ)⌉ ∧
    (safe_int (Cell.str "nan") = none ↔
      (safe_float (Cell.str "nan") = none ∨
       safe_float (Cell.str "nan") = some PFloat.nan ∨
       safe_float (Cell.str "nan") = some (PFloat.inf false) ∨
       safe_float (Cell.str "nan") = some (PFloat.inf true))) :=
  ⟨safe_int_truncates_amended.2.2.1 ((7 : ℕ) : ℚ),
   safe_int_truncates_amended.2.2.2.1 ((7 : ℕ) : ℚ) (by positivity),
   safe_int_truncates_amended.2.2.2.2.1 ((-2 : ℤ) : ℚ) (by norm_num),
   safe_int_truncates_amended.2.2.2.2.2.2.2 (Cell.str "nan")⟩

/-- C2: `delete_invoice` removes the transaction-centric document keyed by
the invoice number and pulls every embedded invoice with that number from
every customer-centric document; afterwards a read by that id finds no
transaction document and no customer holds an embedded invoice referencing
it, while documents with other ids and all other fields are untouched. -/
theorem delete_invoice_retracts (db : DB) (id0 : String)
    (hn : (db.invoices_txn.map TxnDoc._id).Nodup) :
    find_txn ((delete_invoice db id0).invoices_txn) id0 = [] ∧
    (∀ c ∈ (delete_invoice db id0).customers_centric, embedded_refs c id0 = []) ∧
    (∀ d ∈ db.invoices_txn, d._id ≠ id0 → d ∈ (delete_invoice db id0).invoices_txn) ∧
    List.Forall₂ (fun c0 c => c._id = c0._id ∧ c.country = c0.country ∧
        c.invoices = c0.invoices.map (fun l => l.filter (fun i => i.invoice_no != id0)))
      db.customers_centric (delete_invoice db id0).customers_centric := by
  refine ⟨delete_one_txn_find id0 db.invoices_txn hn, ?_, ?_, ?_⟩
  · intro c hc
    obtain ⟨c0, _, hc0⟩ := List.mem_map.1 hc
    rw [← hc0]
    exact embedded_refs_pull c0 id0
  · intro d hd hne
    exact mem_delete_one_txn id0 db.invoices_txn d hd hne
  · exact forall2_map_self _ _ (fun c => ⟨rfl, rfl, rfl⟩) db.customers_centric

/-- Concrete instance of C2: deleting invoice I1 from a one-invoice database
empties the read by id and strips the embedded copy from customer 7. -/
theorem delete_invoice_retracts_witness :
    find_txn ((delete_invoice c2db "I1").invoices_txn) "I1" = [] ∧
    embedded_refs (⟨some 7, none, some []⟩ : CustDoc) "I1" = [] := by
  have H := delete_invoice_retracts c2db "I1" (by decide)
  exact ⟨H.1, H.2.1 ⟨some 7, none, some []⟩ (by decide)⟩

/-- C5: `customer_upsert_ops` produces exactly one upsert per invoice group;
applying an upsert to a collection already holding a matching customer
document changes no document's country and no identifying field, only
appends the invoice sub-document to an invoices array (creating the array if
it was absent), and grows the total number of embedded invoices by one. -/
theorem customer_upsert_ops_frame (df : Frame) (op : UpsertOp) (coll : List CustDoc)
    (_hop : op ∈ customer_upsert_ops df)
    (hex : ∃ c ∈ coll, c._id = op.filter_id) :
    (customer_upsert_ops df).length = (groupByInvoice df.rows).length ∧
    List.Forall₂ (fun c0 c => c._id = c0._id ∧ c.country = c0.country ∧
        (c.invoices = c0.invoices ∨
          c.invoices = some (c0.invoices.getD [] ++ [op.push_invoice])))
      coll (apply_upsert coll op) ∧
    totalInvoices (apply_upsert coll op) = totalInvoices coll + 1 :=
  ⟨by simp [customer_upsert_ops], apply_upsert_forall2 coll op hex,
   totalInvoices_apply_upsert coll op⟩

/-- Concrete instance of C5: the I1 upsert against an existing customer-7
document leaves its country "France" in place and appends one embedded
invoice. -/
theorem customer_upsert_ops_frame_witness :
    (customer_upsert_ops c3df).length = (groupByInvoice c3df.rows).length ∧
    totalInvoices (apply_upsert c5coll c3opI1) = totalInvoices c5coll + 1 ∧
    apply_upsert c5coll c3opI1 =
      [⟨some 7, some "France", some [c3subC9, c3subI1]⟩] := by
  have H := customer_upsert_ops_frame c3df c3opI1 c5coll (by decide) (by decide)
  exact ⟨H.1, H.2.2, by rfl⟩

/-- C9: before the builders run, `process_frame` drops every row missing any
of invoice number, stock code or quantity and every row missing a customer
id; the remaining rows are exactly the ones satisfying all four presence
checks, they are grouped by invoice number (each group being the remaining
rows with that key, every remaining row reaching a group), and the pass
writes exactly the documents and upserts built from those groups. -/
theorem process_frame_filters (df : Frame) (hc : df.hasCustomerID = true) :
    clean_rows df = df.rows.filter (fun r =>
      (!pd_isna r.InvoiceNo && !pd_isna r.StockCode && !pd_isna r.Quantity) &&
      !pd_isna r.CustomerID) ∧
    (∀ r ∈ clean_rows df, pd_isna r.InvoiceNo = false ∧ pd_isna r.StockCode = false ∧
      pd_isna r.Quantity = false ∧ pd_isna r.CustomerID = false) ∧
    (∀ r ∈ df.rows, pd_isna r.InvoiceNo = false → pd_isna r.StockCode = false →
      pd_isna r.Quantity = false → pd_isna r.CustomerID = false →
      r ∈ clean_rows df) ∧
    (∀ p ∈ groupByInvoice (clean_rows df),
      p.2 = (clean_rows df).filter (fun r => rowKey r = p.1) ∧ p.2 ≠ []) ∧
    (∀ r ∈ clean_rows df, ∃ p ∈ groupByInvoice (clean_rows df), r ∈ p.2) ∧
    (∀ db : DB, process_frame df db = Except.ok
      { invoices_txn := (insert_many db.invoices_txn (txn_docs_of df)).1
        customers_centric := bulk_write db.customers_centric (ops_of df) }) := by
  refine ⟨?_, ?_, ?_, ?_, ?_, fun db => process_frame_ok df db hc⟩
  · unfold clean_rows required_kept
    rw [List.filter_filter]
    exact List.filter_congr (fun r _ => Bool.and_comm _ _)
  · intro r hr
    unfold clean_rows required_kept at hr
    rw [List.mem_filter] at hr
    obtain ⟨hr1, hr4⟩ := hr
    rw [List.mem_filter] at hr1
    obtain ⟨_, hr123⟩ := hr1
    simp only [Bool.and_eq_true, Bool.not_eq_true'] at hr123 hr4
    exact ⟨hr123.1.1, hr123.1.2, hr123.2, hr4⟩
  · intro r hr h1 h2 h3 h4
    unfold clean_rows required_kept
    rw [List.mem_filter, List.mem_filter]
    simp only [Bool.and_eq_true, Bool.not_eq_true']
    exact ⟨⟨hr, ⟨h1, h2⟩, h3⟩, h4⟩
  · intro p hp
    exact mem_groupByInvoice hp
  · intro r hr
    obtain ⟨p, hp, _, hrp⟩ := exists_group hr
    exact ⟨p, hp, hrp⟩

/-- Concrete instance of C9: of three rows, the one missing a quantity and
the one missing a customer id are dropped; the pass on the empty database
writes exactly the documents built from the surviving row. -/
theorem process_frame_filters_witness :
    clean_rows c9df = c9df.rows.filter (fun r =>
      (!pd_isna r.InvoiceNo && !pd_isna r.StockCode && !pd_isna r.Quantity) &&
      !pd_isna r.CustomerID) ∧
    clean_rows c9df = [c3row1] ∧
    process_frame c9df c3db0 = Except.ok
      { invoices_txn := (insert_many c3db0.invoices_txn (txn_docs_of c9df)).1
        customers_centric := bulk_write c3db0.customers_centric (ops_of c9df) } := by
  have H := process_frame_filters c9df rfl
  exact ⟨H.1, by decide, H.2.2.2.2.2 c3db0⟩

/-- C3: re-running a load pass over identical input succeeds (the
duplicate-key conflicts are swallowed) and leaves the transaction-centric
collection exactly as after the first pass, while in the customer-centric
collection each group's invoice sub-document has been appended once per
pass: twice after the rerun, against once after the single pass. -/
theorem process_frame_rerun (df : Frame) (db db1 : DB)
    (hc : df.hasCustomerID = true)
    (h1 : process_frame df db = Except.ok db1) :
    ∃ db2, process_frame df db1 = Except.ok db2 ∧
      db2.invoices_txn = db1.invoices_txn ∧
      ∀ op ∈ ops_of df,
        countEmbedded db2.customers_centric op.push_invoice =
          countEmbedded db.customers_centric op.push_invoice + 2 ∧
        countEmbedded db1.customers_centric op.push_invoice =
          countEmbedded db.customers_centric op.push_invoice + 1 := by
  have hok := process_frame_ok df db hc
  rw [h1] at hok
  have hdb1 := Except.ok.inj hok
  subst hdb1
  refine ⟨_, process_frame_ok df _ hc, ?_, ?_⟩
  · show (insert_many (insert_many db.invoices_txn (txn_docs_of df)).1
        (txn_docs_of df)).1 = _
    exact insert_many_all_dup (fun d hd => insert_many_covers d hd)
  · intro op hop
    have hcount :
        ((ops_of df).map (fun o => o.push_invoice)).count op.push_invoice = 1 :=
      count_push_one hop
    constructor
    · show countEmbedded
          (bulk_write (bulk_write db.customers_centric (ops_of df)) (ops_of df))
          op.push_invoice = _
      rw [countEmbedded_bulk_write, countEmbedded_bulk_write, hcount]
    · show countEmbedded (bulk_write db.customers_centric (ops_of df))
          op.push_invoice = _
      rw [countEmbedded_bulk_write, hcount]

/-- Concrete instance of C3: rerunning the two-invoice pass leaves the
transaction collection unchanged and doubles each embedded invoice. -/
theorem process_frame_rerun_witness :
    process_frame c3df c3db1 = Except.ok c3db2 ∧
    c3db2.invoices_txn = c3db1.invoices_txn ∧
    countEmbedded c3db2.customers_centric c3opI1.push_invoice =
      countEmbedded c3db0.customers_centric c3opI1.push_invoice + 2 := by
  have hconc : process_frame c3df c3db1 = Except.ok c3db2 := rfl
  obtain ⟨db2, he, htxn, hcnt⟩ :=
    process_frame_rerun c3df c3db0 c3db1 rfl (by rfl)
  rw [he] at hconc
  have hd := Except.ok.inj hconc
  subst hd
  exact ⟨he, htxn, (hcnt c3opI1 (by decide)).1⟩
